import Mathlib

/-!
Verification development for the PowerSight region-specific accuracy
scoring engine (src/services/formulas.ts and the math helpers of
src/unnamed/part_000).

Modelling conventions.
The engine evaluates user row formulas and aggregation snippets as Python
floats; we idealise float arithmetic as exact rational arithmetic (the row
level and batch loop use the carrier Rat so that everything is executable),
and move to Real only where a square root is taken by the aggregation
code.  The one genuinely float-specific behaviour the generated scripts
rely on is that numpy mean of an empty list is NaN and that the Python
two-argument max written as max(0, x) returns 0 when x is NaN (the
comparison with NaN is false, so the first argument is kept).  We model
that NaN explicitly: npMean returns Option Rat with none standing for the
NaN produced on an empty list, and each aggregation branch written in the
source as max(0, 1 - e) collapses the none case to 0, exactly as the
Python expression does.
-/

/-- From src/unnamed/part_000: mean of an array, 0 on the empty array. -/
def mean (arr : List ℚ) : ℚ :=
  if arr.length = 0 then 0 else arr.sum / (arr.length : ℚ)

/-- From src/unnamed/part_000: root mean square error of two arrays.
Returns 0 when the lengths differ or the arrays are empty; otherwise the
square root of the mean of the squared differences. -/
noncomputable def rmse (real fore : List ℚ) : ℝ :=
  if real.length ≠ fore.length ∨ real.length = 0 then 0
  else Real.sqrt ((mean (List.zipWith (fun r f => (r - f) ^ 2) real fore) : ℚ) : ℝ)

/-- The default Shanxi row template of ROW_TEMPLATES (src/services/formulas.ts). -/
def ROW_TEMPLATES_Shanxi : String :=
  "# 变量说明: real(实测值), fore(预测均值), cap(容量)\n" ++
  "diff = real - fore\n" ++
  "weight = abs(diff) # 权重暂时存为中间变量，最后聚合时使用\n" ++
  "# 山西规则较复杂，通常建议使用完整脚本模式，但在原子模式下，\n" ++
  "# 我们可以计算单点的 (R-F)^2 * |R-F|\n" ++
  "result = (diff ** 2) * abs(diff)"

/-- The default Northeast row template of ROW_TEMPLATES (src/services/formulas.ts). -/
def ROW_TEMPLATES_Northeast : String :=
  "# 变量说明: real(实测), fore_list(预测列表), cap(容量)\nimport numpy as np\n" ++
  "\n" ++
  "# 1. 获取该时刻的预测均值 (fore_list 是该时刻的多家预测值列表)\n" ++
  "mean_fore = np.mean(fore_list)\n" ++
  "\n" ++
  "# 2. 判断死区 (实测和预测均值都小于 10% Cap)\n" ++
  "if real < cap * 0.1 and mean_fore < cap * 0.1:\n" ++
  "    result = 0.0\n" ++
  "else:\n" ++
  "    # 3. 计算归一化误差\n" ++
  "    if mean_fore == 0:\n" ++
  "        result = 0.0\n" ++
  "    else:\n" ++
  "        err = abs((mean_fore - real) / mean_fore)\n" ++
  "        result = min(err, 1.0) # 误差最大限制为 1\n" ++
  "\n" ++
  "# 结果 result 将被收集，最后取均值计算准确率"

/-- The default General row template of ROW_TEMPLATES (src/services/formulas.ts). -/
def ROW_TEMPLATES_General : String :=
  "diff = abs(real - fore)\n" ++
  "result = diff ** 2  # 计算平方误差"

/-- The substring generateBatchScript searches for with rowLogic.includes
to detect the Shanxi weighted template. -/
def shanxiMarker : String := "weight = abs(diff)"

/-- Boolean prefix test on character lists (pat is a prefix of s). -/
def startsList : List Char → List Char → Bool
  | [], _ => true
  | _ :: _, [] => false
  | a :: as, b :: bs => a == b && startsList as bs

/-- Substring search on character lists, modelling the JavaScript
String.prototype.includes used by generateBatchScript. -/
def listIncl (needle : List Char) : List Char → Bool
  | [] => startsList needle []
  | c :: rest => startsList needle (c :: rest) || listIncl needle rest

/-- JavaScript hay.includes(needle). -/
def strIncludes (hay needle : String) : Bool :=
  listIncl needle.toList hay.toList

/-- Whitespace as matched by the backslash-s class of the import-commenting
regular expression in generateBatchScript; the row formulas in this
repository only ever contain spaces and tabs inside a line. -/
def isSpaceChar (c : Char) : Bool := c == ' ' || c == '\t'

/-- Match a string literal at the head of a character list, returning the
remainder on success. -/
def matchLit (lit : String) (l : List Char) : Option (List Char) :=
  if startsList lit.toList l then some (l.drop lit.toList.length) else none

/-- Match one-or-more whitespace characters, returning the remainder. -/
def spaces1 (l : List Char) : Option (List Char) :=
  match l with
  | c :: rest => if isSpaceChar c then some (rest.dropWhile isSpaceChar) else none
  | [] => none

/-- Match the regex tail (whitespace star, optional semicolon, whitespace
star, end of line) of the import-commenting pattern. -/
def lineEndMatch (l : List Char) : Bool :=
  match l.dropWhile isSpaceChar with
  | [] => true
  | c :: rest => c == ';' && (rest.dropWhile isSpaceChar).isEmpty

/-- Match the optional group (whitespace plus, as, whitespace plus, np)
followed by the line end, of the import-commenting pattern. -/
def asNpMatch (l : List Char) : Bool :=
  match spaces1 l with
  | none => false
  | some l1 =>
    match matchLit "as" l1 with
    | none => false
    | some l2 =>
      match spaces1 l2 with
      | none => false
      | some l3 =>
        match matchLit "np" l3 with
        | none => false
        | some l4 => lineEndMatch l4

/-- Whole-line match of the regular expression generateBatchScript applies
per line of the row logic: optional leading whitespace, the word import,
whitespace, the word numpy, optionally as np, optional semicolon, end of
line. -/
def importNumpyLineMatch (l : List Char) : Bool :=
  match matchLit "import" (l.dropWhile isSpaceChar) with
  | none => false
  | some l2 =>
    match spaces1 l2 with
    | none => false
    | some l3 =>
      match matchLit "numpy" l3 with
      | none => false
      | some l4 => lineEndMatch l4 || asNpMatch l4

/-- One line of the import-neutralising replacement of generateBatchScript:
a matching line keeps its leading whitespace (capture group one), then a
hash and a space, then the matched import statement (capture group two),
then the trailing marker comment; a non-matching line is unchanged. -/
def cleanRowLineList (l : List Char) : List Char :=
  if importNumpyLineMatch l then
    l.takeWhile isSpaceChar ++ ('#' :: ' ' :: l.dropWhile isSpaceChar)
      ++ (" # Pre-imported globally").toList
  else l

/-- String form of cleanRowLineList. -/
def cleanRowLine (line : String) : String :=
  String.mk (cleanRowLineList line.toList)

/-- The cleaned row logic of generateBatchScript: the per-line global
multi-line replacement applied to every line of the row formula. -/
def cleanRowLogic (logic : String) : String :=
  String.intercalate "\n" ((logic.splitOn "\n").map cleanRowLine)

/-- Does a line consist of leading whitespace followed by a Python comment
character, so that Python ignores its statement. -/
def isCommentList (l : List Char) : Bool :=
  match l.dropWhile isSpaceChar with
  | c :: _ => c == '#'
  | [] => false

/-- Aggregation methods of the assembler (src/services/formulas.ts,
SavedFormula.aggMethod). -/
inductive AggMethod
  | mean
  | sum
  | rmse
  | custom
deriving DecidableEq

/-- numpy mean: none models the NaN produced on an empty list, otherwise
the exact mean. -/
def npMean (l : List ℚ) : Option ℚ :=
  if l = [] then none else some (l.sum / (l.length : ℚ))

/-- The per-row fore_list binding of the generated batch loop: entry i of
fore_list_arr when it exists and is non-empty, otherwise the one-element
list containing fore. -/
def foreListAt (fore_list_arr : List (List ℚ)) (i : Nat) (fore : ℚ) : List ℚ :=
  if i < fore_list_arr.length ∧ 0 < (fore_list_arr.getD i []).length then
    fore_list_arr.getD i []
  else [fore]

/-- The loop body of the generated _calculate_batch function.  A row
formula is modelled by its outcome function: some v when it binds result
to v, none when it leaves result unbound.  The carry argument is the
value of result currently in the local namespace of _calculate_batch
(none before any row has bound it): the generated guard only assigns 0.0
when the name result is absent from locals(), and a value bound by an
earlier loop iteration keeps the name present, so an unbound row then
records the stale earlier value.  The appended value itself is bound, so
the carry after each row is the appended value. -/
def calcBatchGo (rowEval : ℚ → ℚ → List ℚ → ℚ → ℚ → Option ℚ)
    (real fore : List ℚ) (fore_list_arr : List (List ℚ)) (cap threshold : ℚ) :
    List Nat → Option ℚ → List ℚ
  | [], _ => []
  | i :: is, carry =>
    let r := real.getD i 0
    let f := fore.getD i 0
    let fl := foreListAt fore_list_arr i f
    let v :=
      match rowEval r f fl cap threshold with
      | some v => v
      | none => carry.getD 0
    v :: calcBatchGo rowEval real fore fore_list_arr cap threshold is (some v)

/-- The results list produced by the generated _calculate_batch function:
one appended value per index of the real array.  The source loop reads
fore_arr at the same index, which presumes the day arrays have equal
length; the default value of getD is never reached in that case. -/
def calcBatchOpt (rowEval : ℚ → ℚ → List ℚ → ℚ → ℚ → Option ℚ)
    (real fore : List ℚ) (fore_list_arr : List (List ℚ)) (cap threshold : ℚ) : List ℚ :=
  calcBatchGo rowEval real fore fore_list_arr cap threshold
    (List.range real.length) none

/-- Shanxi total weight of the weighted aggregation override: the sum of
the absolute differences over zip(real, fore). -/
def shanxiTotalWeight (real fore : List ℚ) : ℚ :=
  ((real.zip fore).map (fun p => |p.1 - p.2|)).sum

/-- The aggregation snippet emitted by generateBatchScript, evaluated on
the collected row results.  mean: one minus the numpy mean, floored at 0;
rmse with region Shanxi and the template marker: the weighted override
using shanxiTotalWeight; rmse with region Shanxi without the marker: plain
root mean square with an explicit empty-day default of 1; rmse elsewhere:
one minus root of the numpy mean over cap, floored at 0; sum and custom:
the stub result 0.  In every branch written max(0, 1 - e) in the source,
a NaN mean (npMean = none) makes the Python expression return 0. -/
noncomputable def aggregateBatch (agg : AggMethod) (region : String) (marker : Bool)
    (rowResults real fore : List ℚ) (cap : ℚ) : ℝ :=
  match agg with
  | AggMethod.mean =>
    match npMean rowResults with
    | none => 0
    | some m => max 0 (1 - (m : ℝ))
  | AggMethod.rmse =>
    if region = "Shanxi" then
      if marker then
        if shanxiTotalWeight real fore = 0 then 1
        else
          max 0 (1 - Real.sqrt ((rowResults.sum / shanxiTotalWeight real fore : ℚ) : ℝ)
            / (cap : ℝ))
      else
        if 0 < rowResults.length then
          max 0 (1 - Real.sqrt ((rowResults.sum / (rowResults.length : ℚ) : ℚ) : ℝ)
            / (cap : ℝ))
        else 1
    else
      match npMean rowResults with
      | none => 0
      | some m => max 0 (1 - Real.sqrt (m : ℝ) / (cap : ℝ))
  | AggMethod.sum => 0
  | AggMethod.custom => 0

/-- The value of the script assembled by generateBatchScript for a given
row logic (modelled by its outcome function rowEval plus its source text
rowLogic, on which the Shanxi marker is detected), aggregation method and
region, run on one day of data. -/
noncomputable def scriptAccuracy (rowEval : ℚ → ℚ → List ℚ → ℚ → ℚ → Option ℚ)
    (rowLogic : String) (agg : AggMethod) (region : String)
    (real fore : List ℚ) (fore_list_arr : List (List ℚ)) (cap threshold : ℚ) : ℝ :=
  aggregateBatch agg region (strIncludes rowLogic shanxiMarker)
    (calcBatchOpt rowEval real fore fore_list_arr cap threshold) real fore cap

/-- Outcome function of the General row template: result equals the square
of the absolute difference. -/
def generalRowEval (real fore : ℚ) (_fore_list : List ℚ) (_cap _threshold : ℚ) : Option ℚ :=
  some (|real - fore| ^ 2)

/-- Outcome function of the Shanxi row template: result equals the squared
difference times the absolute difference. -/
def shanxiRowEval (real fore : ℚ) (_fore_list : List ℚ) (_cap _threshold : ℚ) : Option ℚ :=
  some ((real - fore) ^ 2 * |real - fore|)

/-- The Northeast row template evaluated on one sample.  mean_fore is the
numpy mean of the per-row fore_list, which the batch loop always passes
non-empty; the dead band compares real and mean_fore strictly against
cap times 0.1 (the threshold parameter is not consulted); outside the
dead band a zero mean yields 0 and otherwise the absolute normalised
error capped at 1. -/
def northeastRow (real : ℚ) (fore_list : List ℚ) (cap : ℚ) : ℚ :=
  let mean_fore := fore_list.sum / (fore_list.length : ℚ)
  if real < cap * 0.1 ∧ mean_fore < cap * 0.1 then 0
  else if mean_fore = 0 then 0
  else min (|(mean_fore - real) / mean_fore|) 1

/-- An entry of the preview result list of runRowPreview: a numeric value
or a captured error string. -/
inductive PreviewEntry
  | num (v : ℚ)
  | err (s : String)
deriving DecidableEq

/-- One iteration of the preview loop of runRowPreview.  The per-row try
block is modelled by its outcome: an exception message e appends the
Error-prefixed string, a run that leaves result at None appends the
No Result string, and a run that binds result to v appends the float v. -/
def previewEntry (outcome : Except String (Option ℚ)) : PreviewEntry :=
  match outcome with
  | Except.error e => PreviewEntry.err ("Error: " ++ e)
  | Except.ok none => PreviewEntry.err "No Result"
  | Except.ok (some v) => PreviewEntry.num v

/-- The results list of the script built by runRowPreview: one entry per
index of the real array, with result reset to None before every row, so
no state crosses between rows. -/
def previewResults (rowRun : ℚ → ℚ → List ℚ → ℚ → ℚ → Except String (Option ℚ))
    (real fore : List ℚ) (fore_list_arr : List (List ℚ)) (cap threshold : ℚ) :
    List PreviewEntry :=
  (List.range real.length).map (fun i =>
    previewEntry (rowRun (real.getD i 0) (fore.getD i 0)
      (foreListAt fore_list_arr i (fore.getD i 0)) cap threshold))

/-- Add a name to the sandbox global namespace (idempotent). -/
def nsSet (ns : List String) (n : String) : List String :=
  if n ∈ ns then ns else ns ++ [n]

/-- Delete a name from the sandbox global namespace. -/
def nsDel (ns : List String) (n : String) : List String :=
  ns.filter (fun m => m != n)

/-- The effect of one executeCustomFormula call on the set of names bound
in the sandbox global namespace (src/services/formulas.ts).  In order: the
three proxies plus cap and threshold are set; the conversion snippet binds
real, fore and fore_list and deletes the proxies; result is initialised;
the user script runs (its own bindings are outside the engine contract and
are not modelled); the finally block deletes real, fore, fore_list, cap,
threshold and the three proxies — it runs on success and on failure alike,
and the listed deletions are the same in both cases. -/
def executeCustomFormulaNamespace (ns : List String) : List String :=
  let ns1 := nsSet ns "real_proxy"
  let ns2 := nsSet ns1 "fore_proxy"
  let ns3 := nsSet ns2 "fore_list_proxy"
  let ns4 := nsSet ns3 "cap"
  let ns5 := nsSet ns4 "threshold"
  let ns6 := nsSet ns5 "real"
  let ns7 := nsSet ns6 "fore"
  let ns8 := nsSet ns7 "fore_list"
  let ns9 := nsDel ns8 "real_proxy"
  let ns10 := nsDel ns9 "fore_proxy"
  let ns11 := nsDel ns10 "fore_list_proxy"
  let ns12 := nsSet ns11 "result"
  let ns13 := nsDel ns12 "real"
  let ns14 := nsDel ns13 "fore"
  let ns15 := nsDel ns14 "fore_list"
  let ns16 := nsDel ns15 "cap"
  let ns17 := nsDel ns16 "threshold"
  let ns18 := nsDel ns17 "real_proxy"
  let ns19 := nsDel ns18 "fore_proxy"
  nsDel ns19 "fore_list_proxy"

/-- The value of the assembled script after the JavaScript Number coercion
applied by executeCustomFormula: a finite numeric value, or nan when the
coercion yields NaN (for instance when the trailing expression is missing,
so the script evaluates to undefined, or is non-numeric). -/
inductive CoercedValue
  | num (x : ℚ)
  | nan
deriving DecidableEq

/-- The value executeCustomFormula hands back to its caller: a raised
execution error is rethrown; on success the coerced value is returned,
with NaN replaced by 0. -/
def executeCustomFormulaReturn (outcome : Except String CoercedValue) : Except String ℚ :=
  match outcome with
  | Except.error e => Except.error e
  | Except.ok CoercedValue.nan => Except.ok 0
  | Except.ok (CoercedValue.num x) => Except.ok x

/-- A row formula that always binds result makes the batch loop a plain
map of the outcome function over the visited indices. -/
theorem calcBatchGo_total (g : ℚ → ℚ → List ℚ → ℚ → ℚ → ℚ)
    (real fore : List ℚ) (fla : List (List ℚ)) (cap threshold : ℚ) :
    ∀ (idxs : List Nat) (carry : Option ℚ),
      calcBatchGo (fun r f l c t => some (g r f l c t)) real fore fla cap threshold
        idxs carry
      = idxs.map (fun i => g (real.getD i 0) (fore.getD i 0)
          (foreListAt fla i (fore.getD i 0)) cap threshold) := by
  intro idxs
  induction idxs with
  | nil => intro carry; rfl
  | cons i is ih => intro carry; simp [calcBatchGo, ih]

/-- calcBatchOpt for an always-binding row formula is the map of the
outcome function over the index range. -/
theorem calcBatchOpt_total (g : ℚ → ℚ → List ℚ → ℚ → ℚ → ℚ)
    (real fore : List ℚ) (fla : List (List ℚ)) (cap threshold : ℚ) :
    calcBatchOpt (fun r f l c t => some (g r f l c t)) real fore fla cap threshold
      = (List.range real.length).map (fun i => g (real.getD i 0) (fore.getD i 0)
          (foreListAt fla i (fore.getD i 0)) cap threshold) :=
  calcBatchGo_total g real fore fla cap threshold (List.range real.length) none

/-- Indexing two equal-length lists over the index range is zipWith. -/
theorem rangeMap_zipWith (h : ℚ → ℚ → ℚ) :
    ∀ (real fore : List ℚ), fore.length = real.length →
      (List.range real.length).map (fun i => h (real.getD i 0) (fore.getD i 0))
        = List.zipWith h real fore := by
  intro real
  induction real with
  | nil => intro fore _; simp
  | cons r rs ih =>
    intro fore hlen
    cases fore with
    | nil => simp at hlen
    | cons f fs =>
      simp only [List.length_cons] at hlen
      have hlen' : fs.length = rs.length := by omega
      simp only [List.length_cons, List.range_succ_eq_map, List.map_cons,
        List.map_map, List.zipWith_cons_cons]
      have hfun : ((fun i => h ((r :: rs).getD i 0) ((f :: fs).getD i 0)) ∘ Nat.succ)
          = fun i => h (rs.getD i 0) (fs.getD i 0) := by
        funext i
        simp [Function.comp, List.getD_cons_succ]
      rw [hfun, ih fs hlen']
      simp [List.getD_cons_zero]

/-- Dropping a predicate over its own takeWhile prefix reaches the rest. -/
theorem dropWhile_takeWhile_append (p : Char → Bool) :
    ∀ (l rest : List Char),
      (l.takeWhile p ++ rest).dropWhile p = rest.dropWhile p := by
  intro l
  induction l with
  | nil => intro rest; rfl
  | cons c cs ih =>
    intro rest
    by_cases hc : p c
    · simp [List.takeWhile_cons, hc, List.dropWhile_cons, ih]
    · simp [List.takeWhile_cons, hc]

/-- The square root of one hundred. -/
theorem sqrt_hundred : Real.sqrt 100 = 10 := by
  rw [show (100 : ℝ) = 10 ^ 2 by norm_num]
  exact Real.sqrt_sq (by norm_num)

/-- Membership after adding a name to the namespace. -/
theorem mem_nsSet (x n : String) (ns : List String) :
    x ∈ nsSet ns n ↔ x ∈ ns ∨ x = n := by
  unfold nsSet
  split_ifs with hmem
  · constructor
    · exact Or.inl
    · intro hx
      cases hx with
      | inl h => exact h
      | inr h => exact h ▸ hmem
  · simp [List.mem_append]

/-- Membership after deleting a name from the namespace. -/
theorem mem_nsDel (x n : String) (ns : List String) :
    x ∈ nsDel ns n ↔ x ∈ ns ∧ x ≠ n := by
  simp [nsDel, List.mem_filter]

/-- A batch day whose rows never bind result, entered with result already
bound to v, records the stale v for every remaining row. -/
theorem calcBatchGo_none_stale (rowEval : ℚ → ℚ → List ℚ → ℚ → ℚ → Option ℚ)
    (real fore : List ℚ) (fla : List (List ℚ)) (cap threshold : ℚ)
    (hnone : ∀ r f l c t, rowEval r f l c t = none) :
    ∀ (idxs : List Nat) (v : ℚ),
      calcBatchGo rowEval real fore fla cap threshold idxs (some v)
        = List.replicate idxs.length v := by
  intro idxs
  induction idxs with
  | nil => intro v; rfl
  | cons i is ih =>
    intro v
    simp [calcBatchGo, hnone, List.replicate_succ, ih]

/-- C1: for a day evaluated with the General row template (result equals
the squared absolute difference) and the rmse aggregation of the
assembled batch script, for any region other than Shanxi, the produced
accuracy equals max(0, 1 - rmse(real, fore)/cap) with rmse the
independently defined root mean square error of src/unnamed/part_000,
whenever the day arrays have equal length and at least one row. -/
theorem general_profile_rmse_equivalence (region : String) (real fore : List ℚ)
    (cap threshold : ℚ) (hreg : region ≠ "Shanxi")
    (hlen : fore.length = real.length) (hne : real ≠ []) :
    scriptAccuracy generalRowEval ROW_TEMPLATES_General AggMethod.rmse region
        real fore [] cap threshold
      = max 0 (1 - rmse real fore / (cap : ℝ)) := by
  have hrow : calcBatchOpt generalRowEval real fore [] cap threshold
      = List.zipWith (fun r f => (r - f) ^ 2) real fore := by
    have h2 : generalRowEval
        = fun r f l c t =>
            some ((fun r f (_ : List ℚ) (_ _ : ℚ) => |r - f| ^ 2) r f l c t) := rfl
    rw [h2, calcBatchOpt_total]
    have h3 : (List.range real.length).map
          (fun i => |real.getD i 0 - fore.getD i 0| ^ 2)
        = List.zipWith (fun r f => |r - f| ^ 2) real fore :=
      rangeMap_zipWith (fun r f => |r - f| ^ 2) real fore hlen
    have habs : (fun (r f : ℚ) => |r - f| ^ 2) = fun r f => (r - f) ^ 2 := by
      funext r f
      exact sq_abs (r - f)
    rw [← habs]
    exact h3
  have hzlen : (List.zipWith (fun r f => (r - f) ^ 2) real fore).length
      = real.length := by
    rw [List.length_zipWith, hlen, Nat.min_self]
  have hrne : real.length ≠ 0 := by
    intro h0
    exact hne (List.length_eq_zero.mp h0)
  have hzne : List.zipWith (fun r f => (r - f) ^ 2) real fore ≠ [] := by
    intro h0
    rw [h0] at hzlen
    exact hrne hzlen.symm
  unfold scriptAccuracy aggregateBatch
  rw [hrow, if_neg hreg]
  unfold npMean
  rw [if_neg hzne]
  unfold rmse
  rw [if_neg (by
    push_neg
    exact ⟨hlen.symm, hrne⟩)]
  unfold mean
  rw [if_neg (by rw [hzlen]; exact hrne)]

/-- Witness for C1 at the documented scenario: real = [100, 100],
fore = [90, 110], cap = 200 gives accuracy 0.95. -/
theorem general_profile_rmse_equivalence_witness :
    scriptAccuracy generalRowEval ROW_TEMPLATES_General AggMethod.rmse "South"
        [100, 100] [90, 110] [] 200 0
      = max 0 (1 - rmse [100, 100] [90, 110] / (200 : ℝ))
    ∧ max 0 (1 - rmse [100, 100] [90, 110] / (200 : ℝ)) = 19 / 20 := by
  constructor
  · exact general_profile_rmse_equivalence "South" [100, 100] [90, 110] 200 0
      (by decide) rfl (by decide)
  · have hz : mean (List.zipWith (fun r f => (r - f) ^ 2)
        ([100, 100] : List ℚ) [90, 110]) = 100 := by
      simp [mean, List.zipWith, List.sum_cons, List.sum_nil]
      norm_num
    have h1 : rmse [100, 100] [90, 110] = 10 := by
      unfold rmse
      rw [if_neg (by decide), hz]
      rw [show ((100 : ℚ) : ℝ) = (100 : ℝ) by norm_num]
      exact sqrt_hundred
    rw [h1]
    rw [show (1 : ℝ) - 10 / 200 = 19 / 20 by norm_num]
    exact max_eq_right (by norm_num)

/-- The Shanxi total weight is the zipWith form of the per-row absolute
differences. -/
theorem shanxiTotalWeight_eq (real fore : List ℚ) :
    shanxiTotalWeight real fore
      = (List.zipWith (fun r f => |r - f|) real fore).sum := by
  simp [shanxiTotalWeight, List.zip, List.map_zipWith]

/-- C2: with aggregation rmse, region Shanxi and a row formula containing
the known marker, the assembled script computes the total weight as the
sum of the absolute differences of the day rows; a zero total weight
makes the day accuracy 1, and otherwise the accuracy is
max(0, 1 - sqrt(sum(results)/total weight)/cap).  With the default
Shanxi row template, the rows real = [100, 100], fore = [90, 110] and
cap = 200 give accuracy 0.95.  The non-negativity hypothesis on the
summed results reflects that the Python square root would raise on a
negative argument rather than return a value; the Shanxi template always
produces non-negative results. -/
theorem shanxi_weighted_aggregation (rowResults real fore : List ℚ) (cap : ℚ)
    (_hsum : 0 ≤ rowResults.sum) :
    strIncludes ROW_TEMPLATES_Shanxi shanxiMarker = true
    ∧ aggregateBatch AggMethod.rmse "Shanxi" true rowResults real fore cap
        = (if (List.zipWith (fun r f => |r - f|) real fore).sum = 0 then 1
           else max 0 (1 - Real.sqrt
             ((rowResults.sum
                / (List.zipWith (fun r f => |r - f|) real fore).sum : ℚ) : ℝ)
             / (cap : ℝ)))
    ∧ scriptAccuracy shanxiRowEval ROW_TEMPLATES_Shanxi AggMethod.rmse "Shanxi"
        [100, 100] [90, 110] [] 200 0 = 19 / 20 := by
  have hmark : strIncludes ROW_TEMPLATES_Shanxi shanxiMarker = true := by decide
  refine ⟨hmark, ?_, ?_⟩
  · unfold aggregateBatch
    rw [if_pos rfl, if_pos rfl, shanxiTotalWeight_eq]
  · unfold scriptAccuracy
    rw [hmark]
    have hrow : calcBatchOpt shanxiRowEval [100, 100] [90, 110] [] 200 0
        = [1000, 1000] := by
      have hr2 : List.range (List.length ([100, 100] : List ℚ)) = [0, 1] := rfl
      unfold calcBatchOpt
      rw [hr2]
      unfold calcBatchGo calcBatchGo calcBatchGo
      simp [shanxiRowEval, foreListAt]
      norm_num
    rw [hrow]
    unfold aggregateBatch
    rw [if_pos rfl, if_pos rfl]
    have htw : shanxiTotalWeight ([100, 100] : List ℚ) [90, 110] = 20 := by
      simp [shanxiTotalWeight, List.zip]
      norm_num
    rw [htw, if_neg (by norm_num)]
    have hq : ((List.sum ([1000, 1000] : List ℚ) / 20 : ℚ) : ℝ) = 100 := by
      norm_num
    rw [hq, sqrt_hundred]
    rw [show ((200 : ℚ) : ℝ) = (200 : ℝ) by norm_num]
    rw [show (1 : ℝ) - 10 / 200 = 19 / 20 by norm_num]
    exact max_eq_right (by norm_num)

/-- Witness for C2: the aggregation equation applied at the documented
scenario rows (results 1000 and 1000, diffs 10 and -10, cap 200),
together with the 0.95 script value. -/
theorem shanxi_weighted_aggregation_witness :
    aggregateBatch AggMethod.rmse "Shanxi" true [1000, 1000] [100, 100] [90, 110] 200
      = (if (List.zipWith (fun r f => |r - f|) ([100, 100] : List ℚ) [90, 110]).sum = 0
         then 1
         else max 0 (1 - Real.sqrt
           ((List.sum ([1000, 1000] : List ℚ)
              / (List.zipWith (fun r f => |r - f|) ([100, 100] : List ℚ) [90, 110]).sum
              : ℚ) : ℝ)
           / ((200 : ℚ) : ℝ)))
    ∧ scriptAccuracy shanxiRowEval ROW_TEMPLATES_Shanxi AggMethod.rmse "Shanxi"
        [100, 100] [90, 110] [] 200 0 = 19 / 20 := by
  have h := shanxi_weighted_aggregation [1000, 1000] [100, 100] [90, 110] 200
    (by norm_num)
  exact ⟨h.2.1, h.2.2⟩

/-- C3 counterexample: the claimed row value min(|mean - real| / mean, 1),
with the absolute value on the numerator only, differs from the template
for a negative forecast mean.  At real = 5, fore_list = [-1], cap = 10 the
sample is outside the dead band, the template computes the absolute
normalised error abs((mean - real)/mean) = 6 capped at 1, while the
claimed expression evaluates to -6. -/
theorem northeast_row_formula_counterexample :
    northeastRow 5 [-1] 10 = 1
    ∧ min (|(List.sum ([-1] : List ℚ) / (List.length ([-1] : List ℚ) : ℚ)) - 5|
        / (List.sum ([-1] : List ℚ) / (List.length ([-1] : List ℚ) : ℚ))) 1 = -6
    ∧ (1 : ℚ) ≠ -6 := by
  refine ⟨?_, ?_, by norm_num⟩
  · unfold northeastRow
    norm_num
  · norm_num

/-- C3 as amended: for every sample with a non-empty forecast list, the
Northeast template yields 0 inside the dead band (both real and the
forecast mean strictly below 0.1 times cap), 0 when the forecast mean is
zero, and otherwise the absolute value of the whole normalised error
(mean - real)/mean capped at 1; and a day of results aggregated with the
mean method yields max(0, 1 - mean(results)) whenever the day is
non-empty. -/
theorem northeast_row_and_mean_aggregation (real : ℚ) (fore_list : List ℚ)
    (cap : ℚ) (results realArr foreArr : List ℚ) (region : String)
    (marker : Bool) (capq : ℚ)
    (_hfl : fore_list ≠ []) (hres : results ≠ []) :
    northeastRow real fore_list cap
      = (if real < cap * 0.1
            ∧ fore_list.sum / (fore_list.length : ℚ) < cap * 0.1 then 0
         else if fore_list.sum / (fore_list.length : ℚ) = 0 then 0
         else min (|(fore_list.sum / (fore_list.length : ℚ) - real)
            / (fore_list.sum / (fore_list.length : ℚ))|) 1)
    ∧ aggregateBatch AggMethod.mean region marker results realArr foreArr capq
        = max 0 (1 - ((results.sum / (results.length : ℚ) : ℚ) : ℝ)) := by
  constructor
  · unfold northeastRow
    rfl
  · unfold aggregateBatch npMean
    rw [if_neg hres]

/-- Witness for C3 at the documented dead-band scenario real = 15,
fore_list = [15], cap = 200 (sample exempt, row value 0), and a one-row
day of results [0] (day accuracy 1). -/
theorem northeast_row_and_mean_aggregation_witness :
    northeastRow 15 [15] 200 = 0
    ∧ aggregateBatch AggMethod.mean "Northeast" false [0] [] [] 200 = 1 := by
  have h := northeast_row_and_mean_aggregation 15 [15] 200 [0] [] [] "Northeast"
    false 200 (by decide) (by decide)
  constructor
  · rw [h.1]
    norm_num
  · rw [h.2]
    norm_num

/-- C4 counterexample: with threshold = 1/20 (inside [0, 1]) and
cap = 200, a sample whose real value equals threshold times cap exactly
(real = 10) and whose forecast mean is 15 is claimed not to be dead-band;
the template nevertheless exempts it (both values are below the
hard-coded 0.1 times cap = 20), recording 0 where the non-exempt formula
would record 1/3. -/
theorem deadband_threshold_counterexample :
    (0 : ℚ) ≤ 1 / 20
    ∧ (1 / 20 : ℚ) ≤ 1
    ∧ (10 : ℚ) = (1 / 20) * 200
    ∧ northeastRow 10 [15] 200 = 0
    ∧ min (|((15 : ℚ) - 10) / 15|) 1 = 1 / 3
    ∧ (0 : ℚ) ≠ 1 / 3 := by
  refine ⟨by norm_num, by norm_num, by norm_num, ?_, ?_, by norm_num⟩
  · unfold northeastRow
    norm_num
  · norm_num
    rw [abs_of_nonneg (by norm_num : (0 : ℚ) ≤ 1 / 3)]
    exact min_eq_left (by norm_num)

/-- C4 as amended: the Northeast template decides the dead band by strict
comparison against the hard-coded 0.1 times cap, independent of the
threshold parameter.  A sample whose real value is not strictly below
0.1 times cap (the boundary real = 0.1 times cap included) is never
exempt and takes the normalised-error branch; a sample with both the
real value and the forecast mean strictly below 0.1 times cap is exempt
and records 0. -/
theorem deadband_fixed_tenth_boundary (real : ℚ) (fore_list : List ℚ)
    (cap : ℚ) (_hfl : fore_list ≠ []) :
    (¬ real < cap * 0.1 →
       northeastRow real fore_list cap
         = (if fore_list.sum / (fore_list.length : ℚ) = 0 then 0
            else min (|(fore_list.sum / (fore_list.length : ℚ) - real)
               / (fore_list.sum / (fore_list.length : ℚ))|) 1))
    ∧ (real < cap * 0.1 → fore_list.sum / (fore_list.length : ℚ) < cap * 0.1 →
       northeastRow real fore_list cap = 0) := by
  constructor
  · intro hge
    unfold northeastRow
    rw [if_neg (by
      intro hc
      exact hge hc.1)]
  · intro h1 h2
    unfold northeastRow
    rw [if_pos ⟨h1, h2⟩]

/-- Witness for C4: at cap = 200 the boundary sample real = 20 with
forecast mean 15 is not exempt and records 1/3, while the sample
real = 10 with forecast mean 10 is exempt and records 0. -/
theorem deadband_fixed_tenth_boundary_witness :
    northeastRow 20 [15] 200 = 1 / 3
    ∧ northeastRow 10 [10] 200 = 0 := by
  have hb := deadband_fixed_tenth_boundary 20 [15] 200 (by decide)
  have hi := deadband_fixed_tenth_boundary 10 [10] 200 (by decide)
  constructor
  · rw [hb.1 (by norm_num)]
    norm_num
    rw [abs_of_nonneg (by norm_num : (0 : ℚ) ≤ 1 / 3)]
    exact min_eq_left (by norm_num)
  · exact hi.2 (by norm_num) (by norm_num)

/-- C5 counterexample: an empty results list aggregated with the mean
method yields 0, not the claimed default 1.  numpy mean of the empty list
is NaN and the Python expression max(0, 1 - NaN) evaluates to 0. -/
theorem empty_mean_aggregation_counterexample :
    aggregateBatch AggMethod.mean "Northeast" false [] [] [] 200 = 0
    ∧ (0 : ℝ) ≠ 1 := by
  constructor
  · simp [aggregateBatch, npMean]
  · norm_num

/-- C5 as amended: aggregating an empty results list yields 1 exactly in
the two Shanxi rmse branches (which guard the empty day explicitly), and
0 in every other branch: the mean and general rmse branches feed the NaN
of the empty numpy mean into max(0, 1 - e), which evaluates to 0, and the
sum and custom branches are the stub 0.  In all cases the produced
accuracy is a finite number, never NaN or Infinity. -/
theorem empty_results_aggregation_defaults (agg : AggMethod) (region : String)
    (marker : Bool) (cap : ℚ) :
    aggregateBatch agg region marker [] [] [] cap
      = if agg = AggMethod.rmse ∧ region = "Shanxi" then 1 else 0 := by
  cases agg with
  | mean => simp [aggregateBatch, npMean]
  | sum => simp [aggregateBatch]
  | custom => simp [aggregateBatch]
  | rmse =>
    by_cases hreg : region = "Shanxi"
    · cases marker with
      | true => simp [aggregateBatch, hreg, shanxiTotalWeight]
      | false => simp [aggregateBatch, hreg]
    · cases marker with
      | true => simp [aggregateBatch, hreg, npMean]
      | false => simp [aggregateBatch, hreg, npMean]

/-- C6 counterexample: in batch mode the unbound-result default is not
independent of earlier rows.  A row formula that binds result only for
positive real values, run on the day real = [5, -1], records 5 for the
second row (the stale value bound by the first row), not the claimed
0.0. -/
theorem unbound_result_stale_counterexample :
    calcBatchOpt (fun r _ _ _ _ => if 0 < r then some r else none)
        [5, -1] [0, 0] [] 1 0 = [5, 5]
    ∧ (5 : ℚ) ≠ 0 := by
  constructor
  · have hr2 : List.range (List.length ([5, -1] : List ℚ)) = [0, 1] := rfl
    unfold calcBatchOpt
    rw [hr2]
    unfold calcBatchGo calcBatchGo calcBatchGo
    norm_num [foreListAt]
  · norm_num

/-- C6 as amended: in batch mode a row that leaves result unbound records
0.0 only as long as no row of the day has recorded a value yet — a day
whose rows never bind result records 0.0 throughout; once the local name
result holds a value v, every later non-binding row records the stale v;
and in preview mode a row that leaves result at None records the
sentinel string No Result, never 0.0, independent of other rows. -/
theorem unbound_result_default_behaviour :
    (∀ (rowEval : ℚ → ℚ → List ℚ → ℚ → ℚ → Option ℚ)
        (real fore : List ℚ) (fla : List (List ℚ)) (cap threshold : ℚ),
        (∀ r f l c t, rowEval r f l c t = none) →
        calcBatchOpt rowEval real fore fla cap threshold
          = List.replicate real.length 0)
    ∧ (∀ (rowEval : ℚ → ℚ → List ℚ → ℚ → ℚ → Option ℚ)
        (real fore : List ℚ) (fla : List (List ℚ)) (cap threshold : ℚ)
        (idxs : List Nat) (v : ℚ),
        (∀ r f l c t, rowEval r f l c t = none) →
        calcBatchGo rowEval real fore fla cap threshold idxs (some v)
          = List.replicate idxs.length v)
    ∧ (∀ outcome : Except String (Option ℚ), outcome = Except.ok none →
        previewEntry outcome = PreviewEntry.err "No Result") := by
  refine ⟨?_, ?_, ?_⟩
  · intro rowEval real fore fla cap threshold hnone
    unfold calcBatchOpt
    cases hr : List.range real.length with
    | nil =>
      have h0 : real.length = 0 := by simpa using congrArg List.length hr
      rw [h0]
      rfl
    | cons i is =>
      have hlen : real.length = is.length + 1 := by
        have := congrArg List.length hr
        simpa using this
      rw [hlen]
      simp [calcBatchGo, hnone, List.replicate_succ,
        calcBatchGo_none_stale rowEval real fore fla cap threshold hnone is 0]
  · exact fun rowEval real fore fla cap t idxs v h =>
      calcBatchGo_none_stale rowEval real fore fla cap t h idxs v
  · intro outcome h
    rw [h]
    rfl

/-- Witness for C6 as amended: a two-row day whose rows never bind result
records [0, 0]; a remaining row entered with result stale at 7 records 7;
a preview row with result left at None records the sentinel. -/
theorem unbound_result_default_behaviour_witness :
    calcBatchOpt (fun _ _ _ _ _ => none) [1, 2] [0, 0] [] 1 0
      = List.replicate (List.length ([1, 2] : List ℚ)) 0
    ∧ calcBatchGo (fun _ _ _ _ _ => none) [1, 2] [0, 0] [] 1 0 [1] (some 7)
      = List.replicate (List.length ([1] : List Nat)) 7
    ∧ previewEntry (Except.ok none) = PreviewEntry.err "No Result" := by
  obtain ⟨h1, h2, h3⟩ := unbound_result_default_behaviour
  exact ⟨h1 _ [1, 2] [0, 0] [] 1 0 (fun _ _ _ _ _ => rfl),
    h2 _ [1, 2] [0, 0] [] 1 0 [1] 7 (fun _ _ _ _ _ => rfl),
    h3 _ rfl⟩

/-- C7: the preview of a ten-row sample day always returns one entry per
row; when the row formula execution raises on exactly one row and binds a
numeric result on every other row, the entry at the failing index is the
captured error string and every other entry is numeric, and the preview
as a whole is a total function — no row exception reaches the caller. -/
theorem preview_isolation
    (rowRun : ℚ → ℚ → List ℚ → ℚ → ℚ → Except String (Option ℚ))
    (real fore : List ℚ) (fla : List (List ℚ)) (cap threshold : ℚ)
    (j : Nat) (e : String)
    (hlen10 : real.length = 10) (_hflen : fore.length = real.length)
    (hj : j < real.length)
    (hfail : rowRun (real.getD j 0) (fore.getD j 0)
        (foreListAt fla j (fore.getD j 0)) cap threshold = Except.error e)
    (hok : ∀ i, i < real.length → i ≠ j →
        ∃ v, rowRun (real.getD i 0) (fore.getD i 0)
          (foreListAt fla i (fore.getD i 0)) cap threshold
          = Except.ok (some v)) :
    (previewResults rowRun real fore fla cap threshold).length = 10
    ∧ (previewResults rowRun real fore fla cap threshold)[j]?
        = some (PreviewEntry.err ("Error: " ++ e))
    ∧ (∀ i, i < 10 → i ≠ j →
        ∃ v, (previewResults rowRun real fore fla cap threshold)[i]?
          = some (PreviewEntry.num v)) := by
  refine ⟨?_, ?_, ?_⟩
  · unfold previewResults
    rw [List.length_map, List.length_range, hlen10]
  · unfold previewResults
    rw [List.getElem?_map, List.getElem?_range hj, Option.map_some', hfail]
    rfl
  · intro i hi hne
    obtain ⟨v, hv⟩ := hok i (by rw [hlen10]; exact hi) hne
    refine ⟨v, ?_⟩
    unfold previewResults
    rw [List.getElem?_map, List.getElem?_range (by rw [hlen10]; exact hi),
      Option.map_some', hv]
    rfl

/-- Witness for C7: a ten-row sample whose fourth row raises and whose
other rows bind 1; the preview has ten entries, the error sentinel at
index 3, and a numeric entry everywhere else. -/
theorem preview_isolation_witness :
    (previewResults
        (fun r _ _ _ _ => if r < 0 then Except.error "boom"
          else Except.ok (some 1))
        [0, 1, 2, -1, 4, 5, 6, 7, 8, 9] [0, 0, 0, 0, 0, 0, 0, 0, 0, 0] []
        1 0).length = 10
    ∧ (previewResults
        (fun r _ _ _ _ => if r < 0 then Except.error "boom"
          else Except.ok (some 1))
        [0, 1, 2, -1, 4, 5, 6, 7, 8, 9] [0, 0, 0, 0, 0, 0, 0, 0, 0, 0] []
        1 0)[3]? = some (PreviewEntry.err ("Error: " ++ "boom"))
    ∧ (∀ i, i < 10 → i ≠ 3 →
        ∃ v, (previewResults
          (fun r _ _ _ _ => if r < 0 then Except.error "boom"
            else Except.ok (some 1))
          [0, 1, 2, -1, 4, 5, 6, 7, 8, 9] [0, 0, 0, 0, 0, 0, 0, 0, 0, 0] []
          1 0)[i]? = some (PreviewEntry.num v)) := by
  refine preview_isolation _ _ _ _ _ _ 3 "boom" rfl rfl (by norm_num)
    (by norm_num [List.getD_cons_succ, List.getD_cons_zero]) ?_
  intro i hi hne
  simp only [List.length_cons, List.length_nil] at hi
  interval_cases i <;>
    first
      | exact absurd rfl hne
      | exact ⟨1, by norm_num [List.getD_cons_succ, List.getD_cons_zero]⟩

/-- C8 counterexample: a row-formula line that imports numpy but carries a
trailing comment is a numpy import statement the regular expression does
not match; the assembler leaves it unchanged and uncommented, so that
line still executes inside the generated function and shadows the
pre-imported alias. -/
theorem import_comment_counterexample :
    strIncludes "import numpy as np  # note" "import numpy" = true
    ∧ cleanRowLineList ("import numpy as np  # note").toList
        = ("import numpy as np  # note").toList
    ∧ isCommentList (("import numpy as np  # note").toList) = false := by
  refine ⟨by decide, ?_, by decide⟩
  unfold cleanRowLineList
  rw [if_neg (by decide)]

/-- C8 as amended: exactly the row-formula lines consisting of optional
whitespace, import numpy, optionally as np, an optional semicolon and
nothing else are neutralized — such a line becomes a Python comment in
the generated script — while every other line, including an import
carrying any further text on the same line, is left unchanged. -/
theorem import_numpy_line_neutralization (l : List Char) :
    (importNumpyLineMatch l = true → isCommentList (cleanRowLineList l) = true)
    ∧ (importNumpyLineMatch l = false → cleanRowLineList l = l) := by
  constructor
  · intro h
    unfold cleanRowLineList
    rw [if_pos h, List.append_assoc]
    unfold isCommentList
    rw [dropWhile_takeWhile_append]
    rfl
  · intro h
    unfold cleanRowLineList
    rw [if_neg (by simp [h])]

/-- Witness for C8 as amended: the plain import line of the Northeast
template is turned into a comment; the same import with a trailing
comment is left as it is. -/
theorem import_numpy_line_neutralization_witness :
    isCommentList (cleanRowLineList ("import numpy as np").toList) = true
    ∧ cleanRowLineList ("import numpy  # note").toList
        = ("import numpy  # note").toList := by
  obtain ⟨h1, -⟩ := import_numpy_line_neutralization ("import numpy as np").toList
  obtain ⟨-, h2⟩ := import_numpy_line_neutralization ("import numpy  # note").toList
  exact ⟨h1 (by decide), h2 (by decide)⟩

/-- C9 counterexample: the initial result binding is not cleaned up.
Starting from a namespace in which result is absent, one call of
executeCustomFormula leaves result bound, so the binding leaks into the
next call. -/
theorem result_binding_leak_counterexample :
    "result" ∈ executeCustomFormulaNamespace []
    ∧ "result" ∉ ([] : List String) := by
  exact ⟨by decide, by decide⟩

/-- C9 as amended: after a call of executeCustomFormula, the names real,
fore, fore_list, cap and threshold (and the three conversion proxies) are
deleted from the sandbox namespace whatever it contained before, but the
name result, although set before execution, is never deleted and remains
bound. -/
theorem sandbox_namespace_cleanup (ns : List String) :
    "real" ∉ executeCustomFormulaNamespace ns
    ∧ "fore" ∉ executeCustomFormulaNamespace ns
    ∧ "fore_list" ∉ executeCustomFormulaNamespace ns
    ∧ "cap" ∉ executeCustomFormulaNamespace ns
    ∧ "threshold" ∉ executeCustomFormulaNamespace ns
    ∧ "result" ∈ executeCustomFormulaNamespace ns := by
  unfold executeCustomFormulaNamespace
  refine ⟨?_, ?_, ?_, ?_, ?_, ?_⟩ <;>
    simp [mem_nsDel, mem_nsSet]

/-- C10: on a successful execution, executeCustomFormula always hands a
number back to its caller: a value whose coercion is NaN (for instance a
missing trailing expression) becomes 0, and a numeric value is returned
as it is. -/
theorem success_never_nan :
    (∀ v : CoercedValue, ∃ r : ℚ,
        executeCustomFormulaReturn (Except.ok v) = Except.ok r)
    ∧ executeCustomFormulaReturn (Except.ok CoercedValue.nan) = Except.ok 0
    ∧ (∀ x : ℚ, executeCustomFormulaReturn (Except.ok (CoercedValue.num x))
        = Except.ok x) := by
  refine ⟨?_, rfl, fun x => rfl⟩
  intro v
  cases v with
  | num x => exact ⟨x, rfl⟩
  | nan => exact ⟨0, rfl⟩
